import Mathlib

/-!
Verification of the answer-evaluation, hint and extraction orchestration of
the lovable-math-tutor repository.

The model below is a shallow embedding of the three edge functions
(`supabase/functions/evaluate-answer/index.ts`, `supabase/functions/get-hint/index.ts`,
the process-document function) and of the `questions` migration adding
`sort_order`.  JavaScript strings are embedded as `List Char`; the host
runtime's `JSON.parse` is treated as an abstract parameter (the repository
contributes only the code-fence stripping around it), and the HTTP status
of the external AI gateway call is an explicit `Nat` input.
-/

/-- Backquote character, `Char.ofNat 96`. -/
def backquote : Char := Char.ofNat 96

/-- Opening curly brace character, `Char.ofNat 123`. -/
def lbrace : Char := Char.ofNat 123

/-- Closing curly brace character, `Char.ofNat 125`. -/
def rbrace : Char := Char.ofNat 125

/-- ASCII whitespace class removed by JavaScript `String.prototype.trim`
(restricted to the ASCII characters that occur in this development). -/
def jsWhitespace (c : Char) : Bool :=
  c = ' ' || c = '\t' || c = '\n' || c = '\r' || c = Char.ofNat 11 || c = Char.ofNat 12

/-- Left half of JavaScript `trim`. -/
def jsTrimLeft (l : List Char) : List Char := l.dropWhile jsWhitespace

/-- Right half of JavaScript `trim`, by trimming the reverse on the left. -/
def jsTrimRight (l : List Char) : List Char := (jsTrimLeft l.reverse).reverse

/-- JavaScript `String.prototype.trim`: strip whitespace at both ends. -/
def jsTrim (l : List Char) : List Char := jsTrimRight (jsTrimLeft l)

/-- JavaScript `String.prototype.startsWith`. -/
def jsStartsWith (l pre : List Char) : Bool := decide (pre <+: l)

/-- JavaScript `String.prototype.endsWith`. -/
def jsEndsWith (l suf : List Char) : Bool := decide (suf <:+ l)

/-- JavaScript `String.prototype.includes`: substring containment. -/
def jsIncludes (l sub : List Char) : Bool := decide (sub <:+: l)

/-- JavaScript `String.prototype.toLowerCase`, ASCII range. -/
def jsToLower (l : List Char) : List Char := l.map Char.toLower

/-- Truthiness of an optional JavaScript string: `undefined`/`null` and the
empty string are falsy, every other string is truthy. -/
def jsTruthy (d : Option (List Char)) : Bool :=
  match d with
  | none => false
  | some u => !u.isEmpty

/-- `Response.ok` of the fetch API: HTTP status in the range 200-299. -/
def jsOk (status : Nat) : Bool := 200 ≤ status && status ≤ 299

/-! ## Shared visual-reference classifier

`evaluate-answer/index.ts` lines 28-33 and `get-hint/index.ts` lines 27-32
contain the same keyword check on the lowercased question text. -/

/-- The `hasFigure` heuristic of both edge functions: the lowercased question
text contains `"[see figure"` or one of the keywords figure, chart, graph,
diagram, table. -/
def hasFigure (questionText : List Char) : Bool :=
  jsIncludes (jsToLower questionText) "[see figure".toList ||
  jsIncludes (jsToLower questionText) "figure".toList ||
  jsIncludes (jsToLower questionText) "chart".toList ||
  jsIncludes (jsToLower questionText) "graph".toList ||
  jsIncludes (jsToLower questionText) "diagram".toList ||
  jsIncludes (jsToLower questionText) "table".toList

/-! ## evaluate-answer: request side (lines 36-124) -/

/-- `evaluate-answer/index.ts` line 36:
`documentUrl?.toLowerCase().endsWith('.pdf')`; an absent url gives a falsy
result. -/
def isPdf (documentUrl : Option (List Char)) : Bool :=
  match documentUrl with
  | none => false
  | some u => jsEndsWith (jsToLower u) ".pdf".toList

/-- `evaluate-answer/index.ts` line 39: `hasFigure && isPdf`. -/
def cannotGradeAccurately (questionText : List Char) (documentUrl : Option (List Char)) : Bool :=
  hasFigure questionText && isPdf documentUrl

/-- `evaluate-answer/index.ts` line 88: the multimodal user message is built
iff `hasFigure && documentUrl && !isPdf` (with JavaScript truthiness on the
url). -/
def evalAttachesImage (questionText : List Char) (documentUrl : Option (List Char)) : Bool :=
  hasFigure questionText && jsTruthy documentUrl && !(isPdf documentUrl)

/-- The three request shapes of the evaluation orchestrator: multimodal
(strict prompt plus image), lenient (cannot-grade prompt, text with note),
and strict text-only. -/
inductive EvalBranch where
  | multimodal
  | lenient
  | textOnly
deriving DecidableEq

/-- Branch selection of `evaluate-answer/index.ts`: the system prompt is the
lenient one iff `cannotGradeAccurately` (line 45), and the user message is
multimodal iff `evalAttachesImage` (line 88); the two conditions are mutually
exclusive since one requires `isPdf` and the other its negation. -/
def evalBranch (questionText : List Char) (documentUrl : Option (List Char)) : EvalBranch :=
  if evalAttachesImage questionText documentUrl then .multimodal
  else if cannotGradeAccurately questionText documentUrl then .lenient
  else .textOnly

/-! ## evaluate-answer: response side (lines 139-192) -/

/-- The parsed evaluation object (`evaluate-answer/index.ts` line 164):
`isCorrect` may be absent, `cannotGrade` is recorded by its truthiness
(absent field means falsy), `feedback` may be absent. -/
structure Evaluation where
  isCorrect : Option Bool
  cannotGrade : Bool
  feedback : Option (List Char)
deriving DecidableEq

/-- The fallback object of lines 164-166, kept when `JSON.parse` throws:
no `isCorrect`, no `cannotGrade`, fixed feedback string. -/
def defaultEvaluation : Evaluation :=
  ⟨none, false, some "Unable to evaluate answer.".toList⟩

/-- Triple backquote, the markdown fence delimiter. -/
def fence : List Char := [backquote, backquote, backquote]

/-- The seven-character fence opener for a json block. -/
def fenceJson : List Char := fence ++ ['j', 's', 'o', 'n']

/-- Code-fence stripping of `evaluate-answer/index.ts` lines 168-177:
trim, drop a leading json fence (7 chars) or plain fence (3 chars), drop a
trailing fence (slice 0 to -3), trim again. -/
def cleanResponse (responseText : List Char) : List Char :=
  let cleaned := jsTrim responseText
  let cleaned :=
    if jsStartsWith cleaned fenceJson then cleaned.drop 7
    else if jsStartsWith cleaned fence then cleaned.drop 3
    else cleaned
  let cleaned := if jsEndsWith cleaned fence then cleaned.take (cleaned.length - 3) else cleaned
  jsTrim cleaned

/-- Line 183: `evaluation.cannotGrade ? null : (evaluation.isCorrect ?? false)`. -/
def finalIsCorrect (e : Evaluation) : Option Bool :=
  if e.cannotGrade then none else some (e.isCorrect.getD false)

/-- The fields written to the `student_answers` row (lines 186-192). -/
structure AnswerUpdate where
  is_correct : Option Bool
  feedback : Option (List Char)
deriving DecidableEq

/-- Observable outcome of one `evaluate-answer` invocation: the two
dedicated error responses (429 and 402, lines 143-154), the generic thrown
service error for any other non-success status (line 156), or success with
the stored answer update. -/
inductive EvalResult where
  | rateLimited
  | creditsExhausted
  | serviceError (status : Nat)
  | success (update : AnswerUpdate)
deriving DecidableEq

/-- The response-handling pipeline of `evaluate-answer/index.ts` lines
139-192, abstracting the host `JSON.parse` as `parse` (returning `none` when
parsing throws): non-ok statuses branch to the three error kinds without
touching the answer row; otherwise the cleaned content is parsed, the
fallback object applies on failure, and the mapped result is stored. -/
def evaluateAnswerModel (status : Nat) (parse : List Char → Option Evaluation)
    (content : List Char) : EvalResult :=
  if !(jsOk status) then
    if status == 429 then .rateLimited
    else if status == 402 then .creditsExhausted
    else .serviceError status
  else
    let evaluation := (parse (cleanResponse content)).getD defaultEvaluation
    .success ⟨finalIsCorrect evaluation, evaluation.feedback⟩

/-! ## get-hint (`get-hint/index.ts`) -/

/-- One part of a chat message: plain text or an attached image url. -/
inductive MsgPart where
  | text (s : List Char)
  | imageUrl (u : List Char)
deriving DecidableEq

/-- The user text of the multimodal hint request (lines 64-68). -/
def hintMultimodalText (questionText : List Char) : List Char :=
  "Question: ".toList ++ questionText ++
  "\n\nThe question may reference a figure, chart, or table from the document. Please look at the attached document to understand the visual context when providing your hint.\n\nPlease provide a helpful hint (without giving the answer) to help me approach this problem.".toList

/-- The user text of the text-only hint request (lines 81-83). -/
def hintTextOnlyText (questionText : List Char) : List Char :=
  "Question: ".toList ++ questionText ++
  "\n\nPlease provide a helpful hint (without giving the answer) to help me approach this problem.".toList

/-- `get-hint/index.ts` lines 56-85: the user message carries the document as
an image part iff `hasFigure && documentUrl` (JavaScript truthiness, no
check of the url's extension); otherwise it is text-only. -/
def hintUserMessage (questionText : List Char) (documentUrl : Option (List Char)) : List MsgPart :=
  if hasFigure questionText && jsTruthy documentUrl then
    [.text (hintMultimodalText questionText), .imageUrl (documentUrl.getD [])]
  else
    [.text (hintTextOnlyText questionText)]

/-- The attachment condition of `get-hint/index.ts` line 57. -/
def hintAttachesImage (questionText : List Char) (documentUrl : Option (List Char)) : Bool :=
  hasFigure questionText && jsTruthy documentUrl

/-- Observable outcome of one `get-hint` invocation (lines 100-130). -/
inductive HintResult where
  | rateLimited
  | creditsExhausted
  | serviceError (status : Nat)
  | success (hint : List Char)
deriving DecidableEq

/-- The local fallback of `get-hint/index.ts` line 121, substituted when the
service content is missing or empty. -/
def fallbackHint : List Char := "Try breaking down the problem into smaller steps.".toList

/-- Response handling of `get-hint/index.ts` lines 100-130: non-ok statuses
branch to the dedicated 429/402 responses or the generic thrown error;
on success the content (or, when missing or empty, the local fallback) is
trimmed and returned. -/
def getHintModel (status : Nat) (content : Option (List Char)) : HintResult :=
  if !(jsOk status) then
    if status == 429 then .rateLimited
    else if status == 402 then .creditsExhausted
    else .serviceError status
  else
    let hint :=
      match content with
      | none => fallbackHint
      | some c => if c.isEmpty then fallbackHint else c
    .success (jsTrim hint)

/-! ## process-document insertion and the questions migration -/

/-- One entry of the parsed OCR extraction result (process-document,
`{number, text}`). -/
structure ExtractedQuestion where
  number : List Char
  text : List Char
deriving DecidableEq

/-- One row of the batch insert built by process-document
(`src/unnamed/part_003` lines 159-175): only `document_id`,
`question_number` and `question_text` are supplied — no `sort_order`. -/
structure QuestionRow where
  document_id : List Char
  question_number : List Char
  question_text : List Char
deriving DecidableEq

/-- The `questions.map` building the insert payload. -/
def questionRows (documentId : List Char) (qs : List ExtractedQuestion) : List QuestionRow :=
  qs.map fun q => ⟨documentId, q.number, q.text⟩

/-- Column default of the migration `src/unnamed/part_002`:
`ALTER TABLE public.questions ADD COLUMN sort_order integer DEFAULT 0`. -/
def sortOrderDefault : Int := 0

/-- A stored `questions` row, including the `sort_order` column. -/
structure StoredQuestion where
  document_id : List Char
  question_number : List Char
  question_text : List Char
  sort_order : Int
deriving DecidableEq

/-- Effect of inserting `questionRows` into the `questions` table: every
column absent from the payload takes its default, so `sort_order` is
`sortOrderDefault` on every row. -/
def insertQuestions (documentId : List Char) (qs : List ExtractedQuestion) : List StoredQuestion :=
  (questionRows documentId qs).map fun r =>
    ⟨r.document_id, r.question_number, r.question_text, sortOrderDefault⟩

/-! ## Wrapping helpers and lemmas for the code-fence round-trip -/

/-- Wrap a response in a markdown json code fence. -/
def wrapJsonFence (s : List Char) : List Char :=
  fenceJson ++ ('\n' :: (s ++ ('\n' :: fence)))

/-- Wrap a response in a plain markdown code fence. -/
def wrapFence (s : List Char) : List Char :=
  fence ++ ('\n' :: (s ++ ('\n' :: fence)))

lemma jsTrimLeft_cons_of_not {c : Char} (l : List Char) (h : jsWhitespace c = false) :
    jsTrimLeft (c :: l) = c :: l := by
  simp [jsTrimLeft, List.dropWhile_cons, h]

lemma jsTrimLeft_cons_of_ws {c : Char} (l : List Char) (h : jsWhitespace c = true) :
    jsTrimLeft (c :: l) = jsTrimLeft l := by
  simp [jsTrimLeft, List.dropWhile_cons, h]

lemma jsTrimRight_append_of_not (l : List Char) {b : Char} (h : jsWhitespace b = false) :
    jsTrimRight (l ++ [b]) = l ++ [b] := by
  simp [jsTrimRight, jsTrimLeft, List.reverse_append, List.dropWhile_cons, h]

lemma jsTrimRight_append_of_ws (l : List Char) {b : Char} (h : jsWhitespace b = true) :
    jsTrimRight (l ++ [b]) = jsTrimRight l := by
  simp [jsTrimRight, jsTrimLeft, List.reverse_append, List.dropWhile_cons, h]

lemma jsTrim_delim {a b : Char} (m : List Char)
    (ha : jsWhitespace a = false) (hb : jsWhitespace b = false) :
    jsTrim (a :: (m ++ [b])) = a :: (m ++ [b]) := by
  have h1 : jsTrimLeft (a :: (m ++ [b])) = a :: (m ++ [b]) := jsTrimLeft_cons_of_not _ ha
  have h2 : jsTrimRight ((a :: m) ++ [b]) = (a :: m) ++ [b] := jsTrimRight_append_of_not _ hb
  simp only [jsTrim, h1]
  simpa using h2

lemma jsStartsWith_of_ne_head {a b : Char} (l t : List Char) (h : a ≠ b) :
    jsStartsWith (b :: t) (a :: l) = false := by
  simp [jsStartsWith, List.cons_prefix_cons, h]

lemma jsEndsWith_rev (l suf : List Char) :
    jsEndsWith l suf = jsStartsWith l.reverse suf.reverse := by
  unfold jsEndsWith jsStartsWith
  rw [decide_eq_decide]
  exact ( List.reverse_prefix).symm

/-- A brace-delimited object literal is left unchanged by the stripping. -/
lemma cleanResponse_obj (mid : List Char) :
    cleanResponse (lbrace :: (mid ++ [rbrace])) = lbrace :: (mid ++ [rbrace]) := by
  have htrim : jsTrim (lbrace :: (mid ++ [rbrace])) = lbrace :: (mid ++ [rbrace]) :=
    jsTrim_delim _ (by decide) (by decide)
  have h1 : jsStartsWith (lbrace :: (mid ++ [rbrace])) fenceJson = false :=
    jsStartsWith_of_ne_head _ _ (by decide)
  have h2 : jsStartsWith (lbrace :: (mid ++ [rbrace])) fence = false :=
    jsStartsWith_of_ne_head _ _ (by decide)
  have hrev : (lbrace :: (mid ++ [rbrace])).reverse = rbrace :: (mid.reverse ++ [lbrace]) := by
    simp
  have h3 : jsEndsWith (lbrace :: (mid ++ [rbrace])) fence = false := by
    rw [jsEndsWith_rev, hrev]
    exact jsStartsWith_of_ne_head _ _ (by decide)
  simp only [cleanResponse, htrim, h1, h2, h3, Bool.false_eq_true, if_false, htrim]

/-- Trailing newline and closing fence are stripped, then the trim recovers
the original object literal. -/
lemma jsTrim_nl_obj_nl (mid : List Char) :
    jsTrim ('\n' :: ((lbrace :: (mid ++ [rbrace])) ++ ['\n'])) = lbrace :: (mid ++ [rbrace]) := by
  have h1 : jsTrimLeft ('\n' :: ((lbrace :: (mid ++ [rbrace])) ++ ['\n']))
      = jsTrimLeft ((lbrace :: (mid ++ [rbrace])) ++ ['\n']) :=
    jsTrimLeft_cons_of_ws _ (by decide)
  have h2 : jsTrimLeft ((lbrace :: (mid ++ [rbrace])) ++ ['\n'])
      = (lbrace :: (mid ++ [rbrace])) ++ ['\n'] := by
    have := jsTrimLeft_cons_of_not (c := lbrace) ((mid ++ [rbrace]) ++ ['\n']) (by decide)
    simpa using this
  have h3 : jsTrimRight ((lbrace :: (mid ++ [rbrace])) ++ ['\n'])
      = jsTrimRight (lbrace :: (mid ++ [rbrace])) :=
    jsTrimRight_append_of_ws _ (by decide)
  have h4 : jsTrimRight ((lbrace :: mid) ++ [rbrace]) = (lbrace :: mid) ++ [rbrace] :=
    jsTrimRight_append_of_not _ (by decide)
  simp only [jsTrim, h1, h2, h3]
  simpa using h4

/-- Stripping a json code fence recovers the brace-delimited object literal. -/
lemma cleanResponse_wrapJson (mid : List Char) :
    cleanResponse (wrapJsonFence (lbrace :: (mid ++ [rbrace]))) = lbrace :: (mid ++ [rbrace]) := by
  set s : List Char := lbrace :: (mid ++ [rbrace]) with hs
  have hshape : wrapJsonFence s
      = backquote :: (([backquote, backquote, 'j', 's', 'o', 'n', '\n'] ++ (s ++ ['\n', backquote, backquote])) ++ [backquote]) := by
    simp [wrapJsonFence, fenceJson, fence]
  have htrim : jsTrim (wrapJsonFence s) = wrapJsonFence s := by
    rw [hshape]
    exact jsTrim_delim _ (by decide) (by decide)
  have hstart : jsStartsWith (wrapJsonFence s) fenceJson = true := by
    simp [jsStartsWith, wrapJsonFence]
  have hdrop : (wrapJsonFence s).drop 7 = '\n' :: (s ++ ('\n' :: fence)) := by
    rw [wrapJsonFence]
    exact List.drop_left' (by decide)
  have hshape2 : '\n' :: (s ++ ('\n' :: fence)) = (('\n' :: s) ++ ['\n']) ++ fence := by
    simp
  have hend : jsEndsWith ('\n' :: (s ++ ('\n' :: fence))) fence = true := by
    have hsuf : fence <:+ '\n' :: (s ++ ('\n' :: fence)) := by
      rw [hshape2]
      exact List.suffix_append _ _
    simpa [jsEndsWith] using hsuf
  have htake : ('\n' :: (s ++ ('\n' :: fence))).take (('\n' :: (s ++ ('\n' :: fence))).length - 3)
      = ('\n' :: s) ++ ['\n'] := by
    rw [hshape2]
    have hlen : ((('\n' :: s) ++ ['\n']) ++ fence).length - 3 = (('\n' :: s) ++ ['\n']).length := by
      simp [fence]
    rw [hlen, List.take_left]
  have hfinal : jsTrim (('\n' :: s) ++ ['\n']) = s := by
    have := jsTrim_nl_obj_nl mid
    simpa [hs] using this
  simp only [cleanResponse, htrim, hstart, if_true, hdrop, hend, htake, hfinal]

/-- Stripping a plain code fence recovers the brace-delimited object literal. -/
lemma cleanResponse_wrapPlain (mid : List Char) :
    cleanResponse (wrapFence (lbrace :: (mid ++ [rbrace]))) = lbrace :: (mid ++ [rbrace]) := by
  set s : List Char := lbrace :: (mid ++ [rbrace]) with hs
  have hshape : wrapFence s
      = backquote :: (([backquote, backquote, '\n'] ++ (s ++ ['\n', backquote, backquote])) ++ [backquote]) := by
    simp [wrapFence, fence]
  have htrim : jsTrim (wrapFence s) = wrapFence s := by
    rw [hshape]
    exact jsTrim_delim _ (by decide) (by decide)
  have hjson : jsStartsWith (wrapFence s) fenceJson = false := by
    have hj : ('j' : Char) ≠ '\n' := by decide
    simp [jsStartsWith, wrapFence, fenceJson, fence, List.cons_prefix_cons, hj]
  have hstart : jsStartsWith (wrapFence s) fence = true := by
    simp [jsStartsWith, wrapFence]
  have hdrop : (wrapFence s).drop 3 = '\n' :: (s ++ ('\n' :: fence)) := by
    rw [wrapFence]
    exact List.drop_left' (by decide)
  have hshape2 : '\n' :: (s ++ ('\n' :: fence)) = (('\n' :: s) ++ ['\n']) ++ fence := by
    simp
  have hend : jsEndsWith ('\n' :: (s ++ ('\n' :: fence))) fence = true := by
    have hsuf : fence <:+ '\n' :: (s ++ ('\n' :: fence)) := by
      rw [hshape2]
      exact List.suffix_append _ _
    simpa [jsEndsWith] using hsuf
  have htake : ('\n' :: (s ++ ('\n' :: fence))).take (('\n' :: (s ++ ('\n' :: fence))).length - 3)
      = ('\n' :: s) ++ ['\n'] := by
    rw [hshape2]
    have hlen : ((('\n' :: s) ++ ['\n']) ++ fence).length - 3 = (('\n' :: s) ++ ['\n']).length := by
      simp [fence]
    rw [hlen, List.take_left]
  have hfinal : jsTrim (('\n' :: s) ++ ['\n']) = s := by
    have := jsTrim_nl_obj_nl mid
    simpa [hs] using this
  simp only [cleanResponse, htrim, hjson, hstart, Bool.false_eq_true, if_false, if_true, hdrop,
    hend, htake, hfinal]

/-! ## Claim theorems -/

/-- C1 (counterexample): on unparseable service content the stored outcome is
`some false` — graded incorrect — not the ungradable `none` the claim
states, although the fixed fallback feedback is used and nothing is thrown. -/
theorem parse_failure_counterexample :
    evaluateAnswerModel 200 (fun _ => none) "not json".toList
      = .success ⟨some false, some "Unable to evaluate answer.".toList⟩ ∧
    some false ≠ (none : Option Bool) :=
  ⟨by decide, by decide⟩

/-- C1 (amended): for every service response whose content is not parseable
after code-fence stripping, evaluate-answer stores outcome `false` (the
`isCorrect ?? false` default applied to the fallback object) with the fixed
feedback string, and produces a success response rather than a thrown
failure. -/
theorem parse_failure_stores_false (status : Nat) (parse : List Char → Option Evaluation)
    (content : List Char) (hok : jsOk status = true)
    (hfail : parse (cleanResponse content) = none) :
    evaluateAnswerModel status parse content
      = .success ⟨some false, some "Unable to evaluate answer.".toList⟩ := by
  simp [evaluateAnswerModel, hok, hfail, defaultEvaluation, finalIsCorrect]

/-- Witness for `parse_failure_stores_false` at status 200 and content that
no parser accepts. -/
theorem parse_failure_stores_false_witness :
    jsOk 200 = true ∧
    (fun _ : List Char => (none : Option Evaluation)) (cleanResponse "not json".toList) = none ∧
    evaluateAnswerModel 200 (fun _ => none) "not json".toList
      = .success ⟨some false, some "Unable to evaluate answer.".toList⟩ :=
  ⟨by decide, rfl,
    parse_failure_stores_false 200 (fun _ => none) "not json".toList (by decide) rfl⟩

/-- C2 (counterexample): a figure-referencing question with a pdf document
does select the lenient branch, but a service response of shape
isCorrect-true without cannotGrade is stored as outcome `some true` — the
stored outcome in that branch is not always the ungradable `none`. -/
theorem lenient_branch_counterexample :
    evalBranch "Estimate the value from the graph.".toList (some "exam.pdf".toList)
      = .lenient ∧
    evaluateAnswerModel 200
        (fun _ => some ⟨some true, false, some "Correct.".toList⟩) "resp".toList
      = .success ⟨some true, some "Correct.".toList⟩ ∧
    some true ≠ (none : Option Bool) :=
  ⟨by decide, by decide, by decide⟩

/-- C2 (amended): for every figure-referencing question with a pdf document
the lenient branch is selected, and every service response in that branch
whose parsed object carries a truthy `cannotGrade` is stored with the
ungradable outcome `none`. -/
theorem pdf_figure_lenient_branch (q u : List Char) (status : Nat)
    (parse : List Char → Option Evaluation) (content : List Char) (e : Evaluation)
    (hfig : hasFigure q = true) (hpdf : isPdf (some u) = true)
    (hok : jsOk status = true) (hparse : parse (cleanResponse content) = some e)
    (hcg : e.cannotGrade = true) :
    evalBranch q (some u) = .lenient ∧
    evaluateAnswerModel status parse content = .success ⟨none, e.feedback⟩ := by
  constructor
  · simp [evalBranch, evalAttachesImage, cannotGradeAccurately, hfig, hpdf]
  · simp [evaluateAnswerModel, hok, hparse, finalIsCorrect, hcg]

/-- Witness for `pdf_figure_lenient_branch` at a chart question, a pdf url and
a compliant cannotGrade response. -/
theorem pdf_figure_lenient_branch_witness :
    hasFigure "Read the chart.".toList = true ∧
    isPdf (some "exam.pdf".toList) = true ∧
    jsOk 200 = true ∧
    (fun _ : List Char =>
        some (⟨none, true, some "Check the original document.".toList⟩ : Evaluation))
      (cleanResponse "resp".toList)
      = some (⟨none, true, some "Check the original document.".toList⟩ : Evaluation) ∧
    (⟨none, true, some "Check the original document.".toList⟩ : Evaluation).cannotGrade = true ∧
    (evalBranch "Read the chart.".toList (some "exam.pdf".toList) = .lenient ∧
      evaluateAnswerModel 200
          (fun _ => some ⟨none, true, some "Check the original document.".toList⟩)
          "resp".toList
        = .success ⟨none, some "Check the original document.".toList⟩) :=
  ⟨by decide, by decide, by decide, rfl, rfl,
    pdf_figure_lenient_branch "Read the chart.".toList "exam.pdf".toList 200
      (fun _ => some ⟨none, true, some "Check the original document.".toList⟩)
      "resp".toList ⟨none, true, some "Check the original document.".toList⟩
      (by decide) (by decide) (by decide) rfl rfl⟩

/-- C3 (code defect): the batch insert built by process-document supplies no
`sort_order`, so every stored question receives the migration's column
default 0 — the ordering key never equals the position in the extraction
sequence (here labels "2", "1b", "1a" all get key 0 instead of 0, 1, 2). -/
theorem sort_order_is_default_zero :
    (∀ (docId : List Char) (qs : List ExtractedQuestion),
      (insertQuestions docId qs).map (fun r => r.sort_order)
        = List.replicate qs.length 0) ∧
    (insertQuestions "doc-1".toList
        [⟨"2".toList, "first extracted".toList⟩,
         ⟨"1b".toList, "second extracted".toList⟩,
         ⟨"1a".toList, "third extracted".toList⟩]).map (fun r => r.sort_order)
      = [0, 0, 0] ∧
    ([0, 0, 0] : List Int) ≠ [0, 1, 2] := by
  refine ⟨?_, by decide, by decide⟩
  intro docId qs
  induction qs with
  | nil => rfl
  | cons q t ih =>
    simpa [insertQuestions, questionRows, sortOrderDefault, List.replicate_succ]
      using ih

/-- C4 (counterexample): get-hint attaches the document even when its url is
a pdf — the attachment condition checks only `hasFigure && documentUrl`,
with no image/pdf distinction. -/
theorem hint_attaches_pdf_counterexample :
    hintAttachesImage "Using the figure below, find the area.".toList
        (some "worksheet.pdf".toList) = true ∧
    isPdf (some "worksheet.pdf".toList) = true ∧
    MsgPart.imageUrl "worksheet.pdf".toList ∈
      hintUserMessage "Using the figure below, find the area.".toList
        (some "worksheet.pdf".toList) :=
  ⟨by decide, by decide, by decide⟩

/-- C4 (amended): the get-hint request carries the document as an image part
iff the question has a visual reference and a non-empty documentUrl was
supplied — regardless of the url's extension — and otherwise the request is
the text-only message. -/
theorem hint_attachment_iff (q : List Char) (d : Option (List Char)) (u : List Char) :
    (MsgPart.imageUrl u ∈ hintUserMessage q d ↔
      hasFigure q = true ∧ d = some u ∧ u ≠ []) ∧
    ((∃ v, MsgPart.imageUrl v ∈ hintUserMessage q d) ∨
      hintUserMessage q d = [MsgPart.text (hintTextOnlyText q)]) := by
  constructor
  · constructor
    · intro hmem
      by_cases hcond : (hasFigure q && jsTruthy d) = true
      · have hmem' : MsgPart.imageUrl u = MsgPart.text (hintMultimodalText q) ∨
            MsgPart.imageUrl u = MsgPart.imageUrl (d.getD []) := by
          simpa [hintUserMessage, hcond] using hmem
        rcases hmem' with h' | h'
        · exact absurd h' (by simp)
        · have hu : u = d.getD [] := by simpa using h'
          have hfig : hasFigure q = true := ((Bool.and_eq_true _ _).mp hcond).1
          have htr : jsTruthy d = true := ((Bool.and_eq_true _ _).mp hcond).2
          cases d with
          | none => simp [jsTruthy] at htr
          | some v =>
            have hv : v ≠ [] := by simpa [jsTruthy] using htr
            have huv : u = v := by simpa using hu
            exact ⟨hfig, by rw [huv], by rw [huv]; exact hv⟩
      · have hc' : (hasFigure q && jsTruthy d) = false := by
          simpa using hcond
        have : hintUserMessage q d = [MsgPart.text (hintTextOnlyText q)] := by
          simp [hintUserMessage, hc']
        rw [this] at hmem
        simp at hmem
    · rintro ⟨hfig, rfl, hne⟩
      have hcond : (hasFigure q && jsTruthy (some u)) = true := by
        simp [hfig, jsTruthy, hne]
      simp [hintUserMessage, hcond]
  · by_cases hcond : (hasFigure q && jsTruthy d) = true
    · exact Or.inl ⟨d.getD [], by simp [hintUserMessage, hcond]⟩
    · have hc' : (hasFigure q && jsTruthy d) = false := by simpa using hcond
      exact Or.inr (by simp [hintUserMessage, hc'])

/-- C5: for every question text containing none of the visual-reference
keywords (case-insensitive) and no see-figure marker, evaluate-answer
selects the strict text-only branch — no image attached, strict system
prompt — whatever the document reference is. -/
theorem no_keyword_selects_text_only (q : List Char) (d : Option (List Char))
    (hm : jsIncludes (jsToLower q) "[see figure".toList = false)
    (hf : jsIncludes (jsToLower q) "figure".toList = false)
    (hc : jsIncludes (jsToLower q) "chart".toList = false)
    (hg : jsIncludes (jsToLower q) "graph".toList = false)
    (hd : jsIncludes (jsToLower q) "diagram".toList = false)
    (ht : jsIncludes (jsToLower q) "table".toList = false) :
    evalBranch q d = .textOnly ∧ evalAttachesImage q d = false ∧
      cannotGradeAccurately q d = false := by
  have hfig : hasFigure q = false := by
    rw [hasFigure, hm, hf, hc, hg, hd, ht]
    rfl
  simp [evalBranch, evalAttachesImage, cannotGradeAccurately, hfig]

/-- Witness for `no_keyword_selects_text_only` at a plain algebra question
and a pdf document reference. -/
theorem no_keyword_selects_text_only_witness :
    jsIncludes (jsToLower "Solve for x: 2x + 3 = 11".toList) "[see figure".toList = false ∧
    jsIncludes (jsToLower "Solve for x: 2x + 3 = 11".toList) "figure".toList = false ∧
    jsIncludes (jsToLower "Solve for x: 2x + 3 = 11".toList) "chart".toList = false ∧
    jsIncludes (jsToLower "Solve for x: 2x + 3 = 11".toList) "graph".toList = false ∧
    jsIncludes (jsToLower "Solve for x: 2x + 3 = 11".toList) "diagram".toList = false ∧
    jsIncludes (jsToLower "Solve for x: 2x + 3 = 11".toList) "table".toList = false ∧
    (evalBranch "Solve for x: 2x + 3 = 11".toList (some "exam.pdf".toList) = .textOnly ∧
      evalAttachesImage "Solve for x: 2x + 3 = 11".toList (some "exam.pdf".toList) = false ∧
      cannotGradeAccurately "Solve for x: 2x + 3 = 11".toList (some "exam.pdf".toList) = false) :=
  ⟨by decide, by decide, by decide, by decide, by decide, by decide,
    no_keyword_selects_text_only "Solve for x: 2x + 3 = 11".toList (some "exam.pdf".toList)
      (by decide) (by decide) (by decide) (by decide) (by decide) (by decide)⟩

/-- C6: for every non-success grading-service status, evaluate-answer yields
the dedicated rate-limited kind on 429, the dedicated credits-exhausted kind
on 402, and the generic service error otherwise; the three kinds are
pairwise distinct, and no answer update is ever stored in an error case. -/
theorem eval_error_taxonomy (status : Nat) (parse : List Char → Option Evaluation)
    (content : List Char) (h : jsOk status = false) :
    (status = 429 → evaluateAnswerModel status parse content = .rateLimited) ∧
    (status = 402 → evaluateAnswerModel status parse content = .creditsExhausted) ∧
    (status ≠ 429 → status ≠ 402 →
      evaluateAnswerModel status parse content = .serviceError status) ∧
    (∀ u, evaluateAnswerModel status parse content ≠ .success u) ∧
    EvalResult.rateLimited ≠ EvalResult.creditsExhausted ∧
    (∀ s, EvalResult.rateLimited ≠ EvalResult.serviceError s) ∧
    (∀ s, EvalResult.creditsExhausted ≠ EvalResult.serviceError s) := by
  refine ⟨?_, ?_, ?_, ?_, by simp, by intro s; simp, by intro s; simp⟩
  · intro h429
    subst h429
    simp [evaluateAnswerModel, h]
  · intro h402
    subst h402
    simp [evaluateAnswerModel, h]
  · intro h1 h2
    have e1 : (status == 429) = false := by simpa using h1
    have e2 : (status == 402) = false := by simpa using h2
    simp [evaluateAnswerModel, h, e1, e2]
  · intro u
    simp only [evaluateAnswerModel, h, Bool.not_false, if_true]
    split
    · simp
    · split <;> simp

/-- Witness for `eval_error_taxonomy` at the generic failing status 500. -/
theorem eval_error_taxonomy_witness :
    jsOk 500 = false ∧
    ((500 = 429 → evaluateAnswerModel 500 (fun _ => none) "x".toList = .rateLimited) ∧
      (500 = 402 → evaluateAnswerModel 500 (fun _ => none) "x".toList = .creditsExhausted) ∧
      (500 ≠ 429 → 500 ≠ 402 →
        evaluateAnswerModel 500 (fun _ => none) "x".toList = .serviceError 500) ∧
      (∀ u, evaluateAnswerModel 500 (fun _ => none) "x".toList ≠ .success u) ∧
      EvalResult.rateLimited ≠ EvalResult.creditsExhausted ∧
      (∀ s, EvalResult.rateLimited ≠ EvalResult.serviceError s) ∧
      (∀ s, EvalResult.creditsExhausted ≠ EvalResult.serviceError s)) :=
  ⟨by decide, eval_error_taxonomy 500 (fun _ => none) "x".toList (by decide)⟩

/-- C7: wrapping any brace-delimited object literal — in particular any
well-formed isCorrect/feedback response — in a json or plain markdown code
fence leaves the stripped text, and hence the parsed (outcome, feedback)
result of the evaluation pipeline, identical to the unwrapped version. -/
theorem fence_wrapping_roundtrip (mid : List Char) (parse : List Char → Option Evaluation) :
    cleanResponse (wrapJsonFence (lbrace :: (mid ++ [rbrace])))
      = cleanResponse (lbrace :: (mid ++ [rbrace])) ∧
    cleanResponse (wrapFence (lbrace :: (mid ++ [rbrace])))
      = cleanResponse (lbrace :: (mid ++ [rbrace])) ∧
    evaluateAnswerModel 200 parse (wrapJsonFence (lbrace :: (mid ++ [rbrace])))
      = evaluateAnswerModel 200 parse (lbrace :: (mid ++ [rbrace])) ∧
    evaluateAnswerModel 200 parse (wrapFence (lbrace :: (mid ++ [rbrace])))
      = evaluateAnswerModel 200 parse (lbrace :: (mid ++ [rbrace])) := by
  have h1 := cleanResponse_wrapJson mid
  have h2 := cleanResponse_wrapPlain mid
  have h0 := cleanResponse_obj mid
  have hok : jsOk 200 = true := by decide
  refine ⟨h1.trans h0.symm, h2.trans h0.symm, ?_, ?_⟩ <;>
    simp [evaluateAnswerModel, hok, h1, h2, h0]

/-- C8 (counterexample): when the hint service succeeds but returns missing
or empty content, get-hint fabricates the fixed local fallback hint instead
of failing — so it is not true that no input yields a locally fabricated
hint. -/
theorem hint_fallback_counterexample :
    getHintModel 200 none = .success fallbackHint ∧
    getHintModel 200 (some []) = .success fallbackHint ∧
    fallbackHint = "Try breaking down the problem into smaller steps.".toList :=
  ⟨by decide, by decide, rfl⟩

/-- C8 (amended): on every non-success hint-service status get-hint
propagates a distinct error condition (429, 402, or the generic service
error) and never returns a hint; only on a successful response with missing
or empty content does it substitute the fixed local fallback hint. -/
theorem hint_failure_propagates_error (status : Nat) (content : Option (List Char))
    (h : jsOk status = false) :
    (∀ hint, getHintModel status content ≠ .success hint) ∧
    (status = 429 → getHintModel status content = .rateLimited) ∧
    (status = 402 → getHintModel status content = .creditsExhausted) ∧
    (status ≠ 429 → status ≠ 402 → getHintModel status content = .serviceError status) ∧
    HintResult.rateLimited ≠ HintResult.creditsExhausted ∧
    (∀ s, HintResult.rateLimited ≠ HintResult.serviceError s) ∧
    (∀ s, HintResult.creditsExhausted ≠ HintResult.serviceError s) := by
  refine ⟨?_, ?_, ?_, ?_, by simp, by intro s; simp, by intro s; simp⟩
  · intro hint
    simp only [getHintModel, h, Bool.not_false, if_true]
    split
    · simp
    · split <;> simp
  · intro h429
    subst h429
    simp [getHintModel, h]
  · intro h402
    subst h402
    simp [getHintModel, h]
  · intro h1 h2
    have e1 : (status == 429) = false := by simpa using h1
    have e2 : (status == 402) = false := by simpa using h2
    simp [getHintModel, h, e1, e2]

/-- Witness for `hint_failure_propagates_error` at the generic failing
status 500. -/
theorem hint_failure_propagates_error_witness :
    jsOk 500 = false ∧
    ((∀ hint, getHintModel 500 none ≠ .success hint) ∧
      (500 = 429 → getHintModel 500 none = .rateLimited) ∧
      (500 = 402 → getHintModel 500 none = .creditsExhausted) ∧
      (500 ≠ 429 → 500 ≠ 402 → getHintModel 500 none = .serviceError 500) ∧
      HintResult.rateLimited ≠ HintResult.creditsExhausted ∧
      (∀ s, HintResult.rateLimited ≠ HintResult.serviceError s) ∧
      (∀ s, HintResult.creditsExhausted ≠ HintResult.serviceError s)) :=
  ⟨by decide, hint_failure_propagates_error 500 none (by decide)⟩

/-- C9: for every question text that does contain a visual-reference keyword
but comes with no document reference at all, evaluate-answer still selects
the strict text-only branch — neither the multimodal nor the lenient one. -/
theorem figure_without_document_text_only (q : List Char)
    (_hfig : hasFigure q = true) :
    evalBranch q none = .textOnly ∧ evalAttachesImage q none = false ∧
      cannotGradeAccurately q none = false := by
  simp [evalBranch, evalAttachesImage, cannotGradeAccurately, isPdf, jsTruthy]

/-- Witness for `figure_without_document_text_only` at a graph question. -/
theorem figure_without_document_text_only_witness :
    hasFigure "Estimate the slope from the graph.".toList = true ∧
    (evalBranch "Estimate the slope from the graph.".toList none = .textOnly ∧
      evalAttachesImage "Estimate the slope from the graph.".toList none = false ∧
      cannotGradeAccurately "Estimate the slope from the graph.".toList none = false) :=
  ⟨by decide,
    figure_without_document_text_only "Estimate the slope from the graph.".toList (by decide)⟩

/-- C10: every successfully parsed service response lacking both an
isCorrect field and a truthy cannotGrade field is stored as outcome
`some false` — graded incorrect — through the `isCorrect ?? false`
default. -/
theorem missing_fields_stores_false (status : Nat) (parse : List Char → Option Evaluation)
    (content : List Char) (e : Evaluation) (hok : jsOk status = true)
    (hparse : parse (cleanResponse content) = some e)
    (hic : e.isCorrect = none) (hcg : e.cannotGrade = false) :
    evaluateAnswerModel status parse content = .success ⟨some false, e.feedback⟩ := by
  simp [evaluateAnswerModel, hok, hparse, finalIsCorrect, hcg, hic]

/-- Witness for `missing_fields_stores_false` at a parsed object carrying
only feedback. -/
theorem missing_fields_stores_false_witness :
    jsOk 200 = true ∧
    (fun _ : List Char => some (⟨none, false, some "Looks fine.".toList⟩ : Evaluation))
      (cleanResponse "resp".toList)
      = some (⟨none, false, some "Looks fine.".toList⟩ : Evaluation) ∧
    (⟨none, false, some "Looks fine.".toList⟩ : Evaluation).isCorrect = none ∧
    (⟨none, false, some "Looks fine.".toList⟩ : Evaluation).cannotGrade = false ∧
    evaluateAnswerModel 200
        (fun _ => some ⟨none, false, some "Looks fine.".toList⟩) "resp".toList
      = .success ⟨some false, some "Looks fine.".toList⟩ :=
  ⟨by decide, rfl, rfl, rfl,
    missing_fields_stores_false 200
      (fun _ => some ⟨none, false, some "Looks fine.".toList⟩) "resp".toList
      ⟨none, false, some "Looks fine.".toList⟩ (by decide) rfl rfl rfl⟩
